import Mathlib

/-!
Verification of the multi-agent control plane (thread registry, agent
control facade, headless drain task, group-chat log, and wait protocol)
of the `kaabil-codex` repository, shallowly embedded in Lean.

Embedding conventions:
* `ThreadId` is modelled as `Nat` (the Rust type is an opaque unique id).
* Rust `String`s whose contents are manipulated character-by-character
  (the output buffers) are modelled as `List Char`; `String.data` mediates.
  Rust byte indices produced by `char_indices().nth(k)` correspond to
  dropping `k` characters from the char list.
* Rust `usize::saturating_sub` is Nat subtraction.
* `HashMap`s are modelled as total functions into `Option` (lookup) or,
  for the group-chat cursor map whose absent keys are read as `0`, as a
  total function into `Nat` with default `0` (shifting every value of the
  total function agrees with shifting only the stored entries, because
  `0 - k = 0` under saturation).
* Async effects (locks, awaits) are elided: each operation is the pure
  state transformation the Rust code performs under its lock.
-/

namespace KaabilCodex

abbrev ThreadId := Nat

/-! ## Group chat log — `src/codex-rs/core/src/state/session.rs` -/

/-- `MAX_GROUP_CHAT_MESSAGES` from `state/session.rs`. -/
def MAX_GROUP_CHAT_MESSAGES : Nat := 500

/-- `GroupChatState` from `state/session.rs`: the bounded entry log and the
per-subscriber cursor map (absent cursors read as `0`, so the map is
modelled as a total function with default `0`). Entry payloads
(`GroupChatMessageEvent`) are never inspected by this code, so they are
modelled as `String`. -/
structure GroupChatState where
  entries : List String
  cursors : ThreadId → Nat

/-- `GroupChatState::new`. -/
def GroupChatState.new : GroupChatState :=
  { entries := [], cursors := fun _ => 0 }

/-- `GroupChatState::append`: push the message, and on overflow drop the
oldest excess entries from the front and shift every cursor down by the
overflow, saturating at zero. (The Rust method also returns the new
length; the returned state determines it.) -/
def GroupChatState.append (st : GroupChatState) (message : String) : GroupChatState :=
  let entries := st.entries ++ [message]
  if entries.length > MAX_GROUP_CHAT_MESSAGES then
    let overflow := entries.length - MAX_GROUP_CHAT_MESSAGES
    { entries := entries.drop overflow
      cursors := fun id => st.cursors id - overflow }
  else
    { entries := entries, cursors := st.cursors }

/-- `GroupChatState::unread_messages`: current length plus the messages
from the subscriber's cursor (clamped to the length) to the end. -/
def GroupChatState.unread_messages (st : GroupChatState) (subagent_id : ThreadId) :
    Nat × List String :=
  let start := min (st.cursors subagent_id) st.entries.length
  (st.entries.length, st.entries.drop start)

/-- `GroupChatState::mark_read`. -/
def GroupChatState.mark_read (st : GroupChatState) (subagent_id : ThreadId)
    (cursor : Nat) : GroupChatState :=
  { st with cursors := fun id => if id = subagent_id then cursor else st.cursors id }

/-- The number of entries `append` evicts when called on `st`:
zero unless the pushed log would exceed the cap. -/
def GroupChatState.evictCount (st : GroupChatState) : Nat :=
  (st.entries.length + 1) - MAX_GROUP_CHAT_MESSAGES

lemma GroupChatState.append_entries_le (st : GroupChatState) (m : String)
    (h : st.entries.length ≤ MAX_GROUP_CHAT_MESSAGES) :
    (st.append m).entries.length ≤ MAX_GROUP_CHAT_MESSAGES := by
  simp only [GroupChatState.append]
  split
  · simp only [List.length_drop]
    omega
  · next hc =>
      simp only [List.length_append, List.length_cons, List.length_nil] at hc
      simp only [List.length_append, List.length_cons, List.length_nil]
      omega

lemma GroupChatState.foldl_append_entries_le (msgs : List String) :
    ∀ (st : GroupChatState), st.entries.length ≤ MAX_GROUP_CHAT_MESSAGES →
      (msgs.foldl GroupChatState.append st).entries.length ≤ MAX_GROUP_CHAT_MESSAGES := by
  induction msgs with
  | nil => intro st h; simpa using h
  | cons m rest ih =>
      intro st h
      simpa using ih (st.append m) (st.append_entries_le m h)

lemma GroupChatState.append_cursors_eq (st : GroupChatState) (m : String) (id : ThreadId) :
    (st.append m).cursors id = st.cursors id - st.evictCount := by
  simp only [GroupChatState.append, GroupChatState.evictCount]
  split
  · next hc =>
      simp only [List.length_append, List.length_cons, List.length_nil] at hc ⊢
  · next hc =>
      simp only [List.length_append, List.length_cons, List.length_nil] at hc
      have h0 : st.entries.length + 1 - MAX_GROUP_CHAT_MESSAGES = 0 := by omega
      simp [h0]

lemma GroupChatState.append_unread_eq (st : GroupChatState) (m : String) (id : ThreadId)
    (h : st.evictCount ≤ st.cursors id) :
    (st.append m).entries.length - (st.append m).cursors id
      = (st.entries.length + 1) - st.cursors id := by
  unfold GroupChatState.evictCount at h
  simp only [GroupChatState.append]
  split
  · next hc =>
      simp only [List.length_append, List.length_cons, List.length_nil] at hc
      simp only [List.length_drop, List.length_append, List.length_cons, List.length_nil]
      omega
  · next hc =>
      simp only [List.length_append, List.length_cons, List.length_nil] at hc
      simp only [List.length_append, List.length_cons, List.length_nil]

/-! ## Subagent output buffers — `src/codex-rs/core/src/thread_manager.rs` -/

/-- `MAX_SUBAGENT_OUTPUT_CHARS` from `thread_manager.rs`. -/
def MAX_SUBAGENT_OUTPUT_CHARS : Nat := 8000

/-- `MAX_SUBAGENT_REASONING_CHARS` from `thread_manager.rs`. -/
def MAX_SUBAGENT_REASONING_CHARS : Nat := 8000

/-- `MAX_SUBAGENT_TOOL_EVENTS` from `thread_manager.rs`. -/
def MAX_SUBAGENT_TOOL_EVENTS : Nat := 200

/-- `SubagentOutput` from `thread_manager.rs`. The Rust field `partial`
is a Lean keyword, so it is named `partialText` here; the character
buffers are char lists (see the embedding conventions above). -/
structure SubagentOutput where
  partialText : List Char
  last_message : Option (List Char)
  reasoning : List Char
  tool_events : List (List Char)
deriving DecidableEq

/-- `SubagentOutputSnapshot` from `thread_manager.rs`. -/
structure SubagentOutputSnapshot where
  partialText : Option (List Char)
  last_message : Option (List Char)
  reasoning : Option (List Char)
  tool_events : List (List Char)
deriving DecidableEq

/-- `trim_to_max_chars` from `thread_manager.rs`: drop the oldest
characters so that at most `max_chars` remain. The Rust code computes the
byte index of the `trim_chars`-th character with
`char_indices().nth(trim_chars)` and falls back to `0` (keeping
everything) when that is out of range, which happens exactly when
`max_chars = 0`; the model mirrors that fallback. -/
def trim_to_max_chars (value : List Char) (max_chars : Nat) : List Char :=
  let total := value.length
  if total ≤ max_chars then value
  else
    let trim_chars := total - max_chars
    let start := if trim_chars < total then trim_chars else 0
    value.drop start

/-- `trim_snapshot` from `thread_manager.rs`: `none` for an empty string,
otherwise the value truncated to its at most `max_chars` trailing
characters — with the same `nth`-out-of-range fallback to `0` as
`trim_to_max_chars`, reached exactly when `max_chars = 0`. -/
def trim_snapshot (value : List Char) (max_chars : Nat) : Option (List Char) :=
  if value.isEmpty then none
  else
    let total := value.length
    if total ≤ max_chars then some value
    else
      let trim_chars := total - max_chars
      let start := if trim_chars < total then trim_chars else 0
      some (value.drop start)

/-- `SubagentOutput::push_delta`. -/
def SubagentOutput.push_delta (o : SubagentOutput) (delta : List Char) : SubagentOutput :=
  { o with partialText := trim_to_max_chars (o.partialText ++ delta) MAX_SUBAGENT_OUTPUT_CHARS }

/-- `SubagentOutput::push_reasoning_delta`. -/
def SubagentOutput.push_reasoning_delta (o : SubagentOutput) (delta : List Char) :
    SubagentOutput :=
  { o with reasoning := trim_to_max_chars (o.reasoning ++ delta) MAX_SUBAGENT_REASONING_CHARS }

/-- `SubagentOutput::push_tool_event`: push, then drop the oldest events
past the cap. -/
def SubagentOutput.push_tool_event (o : SubagentOutput) (event : List Char) : SubagentOutput :=
  let tool_events := o.tool_events ++ [event]
  if tool_events.length > MAX_SUBAGENT_TOOL_EVENTS then
    { o with tool_events := tool_events.drop (tool_events.length - MAX_SUBAGENT_TOOL_EVENTS) }
  else
    { o with tool_events := tool_events }

/-- `SubagentOutput::set_message`: store the finalized message and clear
the streamed partial text. -/
def SubagentOutput.set_message (o : SubagentOutput) (message : List Char) : SubagentOutput :=
  { o with last_message := some message, partialText := [] }

/-- `SubagentOutput::reset_for_prompt`: clear the streamed buffers; the
finalized `last_message` is not touched. -/
def SubagentOutput.reset_for_prompt (o : SubagentOutput) : SubagentOutput :=
  { o with partialText := [], reasoning := [], tool_events := [] }

/-- `SubagentOutput::snapshot`: a point-in-time copy; each text buffer is
`none` when empty, and right-truncated via `trim_snapshot` when a limit is
given (Rust `and_then`/`or_else` chain rendered as a `match`). -/
def SubagentOutput.snapshot (o : SubagentOutput) (max_chars : Option Nat) :
    SubagentOutputSnapshot :=
  let partialText :=
    match max_chars.bind (fun limit => trim_snapshot o.partialText limit) with
    | some v => some v
    | none => if o.partialText.isEmpty then none else some o.partialText
  let reasoning :=
    match max_chars.bind (fun limit => trim_snapshot o.reasoning limit) with
    | some v => some v
    | none => if o.reasoning.isEmpty then none else some o.reasoning
  { partialText := partialText
    last_message := o.last_message
    reasoning := reasoning
    tool_events := o.tool_events }

/-! ### Suffix reasoning helpers -/

/-- The at most `n` trailing elements of `l` (its true suffix of length
`min n l.length`). -/
def suffixList {α : Type} (l : List α) (n : Nat) : List α :=
  l.drop (l.length - n)

lemma suffixList_length {α : Type} (l : List α) (n : Nat) :
    (suffixList l n).length = min n l.length := by
  simp only [suffixList, List.length_drop]
  omega

lemma suffixList_of_length_le {α : Type} (l : List α) (n : Nat) (h : l.length ≤ n) :
    suffixList l n = l := by
  simp only [suffixList]
  have : l.length - n = 0 := by omega
  simp [this]

lemma suffixList_append {α : Type} (l d : List α) (m : Nat) :
    suffixList (suffixList l m ++ d) m = suffixList (l ++ d) m := by
  by_cases h : l.length ≤ m
  · rw [suffixList_of_length_le l m h]
  · simp only [suffixList, List.length_append, List.length_drop]
    rw [List.drop_append_eq_append_drop, List.drop_append_eq_append_drop,
      List.drop_drop]
    have hlen : (l.drop (l.length - m)).length = m := by
      simp only [List.length_drop]; omega
    congr 1
    · congr 1
      omega
    · congr 1
      simp only [List.length_drop]
      omega

/-- For a positive cap, `trim_to_max_chars` keeps exactly the trailing
`max_chars` characters. -/
lemma trim_to_max_chars_eq_suffix (value : List Char) (m : Nat) (hm : 1 ≤ m) :
    trim_to_max_chars value m = suffixList value m := by
  simp only [trim_to_max_chars, suffixList]
  split
  · next h =>
      have : value.length - m = 0 := by omega
      simp [this]
  · next h =>
      have : value.length - m < value.length := by omega
      simp [this]

/-- Folding a `suffixList`-shaped push over a delta sequence yields the
true suffix of the whole concatenation. -/
lemma foldl_suffix {α : Type} (m : Nat) (f : List α → List α → List α)
    (hf : ∀ acc d, f acc d = suffixList (acc ++ d) m) :
    ∀ (ds : List (List α)) (b : List α), b.length ≤ m →
      ds.foldl f b = suffixList (b ++ ds.flatten) m := by
  intro ds
  induction ds with
  | nil =>
      intro b hb
      simp [suffixList_of_length_le _ _ (by simpa using hb)]
  | cons d rest ih =>
      intro b hb
      have hstep : f b d = suffixList (b ++ d) m := hf b d
      have hlen : (suffixList (b ++ d) m).length ≤ m := by
        rw [suffixList_length]; omega
      calc (d :: rest).foldl f b = rest.foldl f (f b d) := by simp
    _ = rest.foldl f (suffixList (b ++ d) m) := by rw [hstep]
    _ = suffixList (suffixList (b ++ d) m ++ rest.flatten) m := ih _ hlen
    _ = suffixList ((b ++ d) ++ rest.flatten) m := suffixList_append _ _ m
    _ = suffixList (b ++ (d :: rest).flatten) m := by simp

lemma foldl_suffix_singleton {α : Type} (m : Nat) :
    ∀ (es : List α) (b : List α), b.length ≤ m →
      es.foldl (fun acc e => suffixList (acc ++ [e]) m) b = suffixList (b ++ es) m := by
  intro es
  induction es with
  | nil =>
      intro b hb
      simp [suffixList_of_length_le _ _ (by simpa using hb)]
  | cons e rest ih =>
      intro b hb
      have hlen : (suffixList (b ++ [e]) m).length ≤ m := by
        rw [suffixList_length]; omega
      simp only [List.foldl_cons]
      rw [ih _ hlen, suffixList_append]
      simp

lemma GroupChatState.append_entries_eq_suffix (st : GroupChatState) (m : String) :
    (st.append m).entries = suffixList (st.entries ++ [m]) MAX_GROUP_CHAT_MESSAGES := by
  simp only [GroupChatState.append]
  split
  · simp [suffixList]
  · next hc =>
      rw [suffixList_of_length_le _ _ (Nat.le_of_not_lt hc)]

lemma GroupChatState.foldl_append_entries (msgs : List String) :
    ∀ (st : GroupChatState),
      (msgs.foldl GroupChatState.append st).entries
        = msgs.foldl (fun acc m => suffixList (acc ++ [m]) MAX_GROUP_CHAT_MESSAGES)
            st.entries := by
  induction msgs with
  | nil => intro st; rfl
  | cons m rest ih =>
      intro st
      simp only [List.foldl_cons]
      rw [ih (st.append m), GroupChatState.append_entries_eq_suffix]

lemma foldl_push_delta_partialText (ds : List (List Char)) :
    ∀ (o : SubagentOutput),
      (ds.foldl SubagentOutput.push_delta o).partialText
        = ds.foldl (fun acc d => trim_to_max_chars (acc ++ d) MAX_SUBAGENT_OUTPUT_CHARS)
            o.partialText := by
  induction ds with
  | nil => intro o; rfl
  | cons d rest ih =>
      intro o
      simpa using ih (o.push_delta d)

lemma foldl_push_reasoning_delta_reasoning (ds : List (List Char)) :
    ∀ (o : SubagentOutput),
      (ds.foldl SubagentOutput.push_reasoning_delta o).reasoning
        = ds.foldl (fun acc d => trim_to_max_chars (acc ++ d) MAX_SUBAGENT_REASONING_CHARS)
            o.reasoning := by
  induction ds with
  | nil => intro o; rfl
  | cons d rest ih =>
      intro o
      simpa using ih (o.push_reasoning_delta d)

lemma push_tool_event_eq_suffix (o : SubagentOutput) (e : List Char) :
    (o.push_tool_event e).tool_events
      = suffixList (o.tool_events ++ [e]) MAX_SUBAGENT_TOOL_EVENTS := by
  simp only [SubagentOutput.push_tool_event]
  split
  · simp [suffixList]
  · next h =>
      simp [suffixList_of_length_le _ _ (Nat.le_of_not_lt h)]

lemma foldl_push_tool_event_tool_events (es : List (List Char)) :
    ∀ (o : SubagentOutput),
      (es.foldl SubagentOutput.push_tool_event o).tool_events
        = es.foldl (fun acc e => suffixList (acc ++ [e]) MAX_SUBAGENT_TOOL_EVENTS)
            o.tool_events := by
  induction es with
  | nil => intro o; rfl
  | cons e rest ih =>
      intro o
      simp only [List.foldl_cons]
      rw [ih (o.push_tool_event e), push_tool_event_eq_suffix]

lemma trim_snapshot_pos (v : List Char) (m : Nat) (hm : 1 ≤ m) :
    trim_snapshot v m = if v.isEmpty then none else some (suffixList v m) := by
  simp only [trim_snapshot]
  by_cases he : v.isEmpty
  · simp [he]
  · have hlen : 0 < v.length := by
      cases v with
      | nil => simp at he
      | cons c cs => simp
    simp only [he, Bool.false_eq_true, if_false]
    by_cases h : v.length ≤ m
    · simp [h, suffixList_of_length_le v m h]
    · have hlt : v.length - m < v.length := by omega
      simp [h, hlt, suffixList]

lemma snapshot_partialText_pos (o : SubagentOutput) (m : Nat) (hm : 1 ≤ m) :
    (o.snapshot (some m)).partialText
      = if o.partialText.isEmpty then none else some (suffixList o.partialText m) := by
  simp only [SubagentOutput.snapshot, Option.bind, trim_snapshot_pos _ _ hm]
  by_cases he : o.partialText.isEmpty <;> simp [he]

lemma snapshot_reasoning_pos (o : SubagentOutput) (m : Nat) (hm : 1 ≤ m) :
    (o.snapshot (some m)).reasoning
      = if o.reasoning.isEmpty then none else some (suffixList o.reasoning m) := by
  simp only [SubagentOutput.snapshot, Option.bind, trim_snapshot_pos _ _ hm]
  by_cases he : o.reasoning.isEmpty <;> simp [he]

end KaabilCodex

namespace KaabilCodex

/-- Claim C1: for every sequence of `append` calls starting from the empty
group chat, `entries.len()` never exceeds 500; each `append` retains
exactly the at most 500 trailing entries of the pushed log (the oldest
excess entries are dropped from the front), so after any sequence of
appends the log is exactly the most recent 500 appended messages in
order; a single `append` decreases every cursor by exactly the number of
evicted entries (zero when nothing is evicted), saturating at zero; and
whenever a subscriber's cursor is at or past the evicted prefix, its
unread count after the append equals the pre-append length plus one minus
its old cursor — i.e. the eviction preserves the unread count exactly. -/
theorem group_chat_append_cap_cursor_shift_unread :
    (∀ msgs : List String,
      (msgs.foldl GroupChatState.append GroupChatState.new).entries.length
        ≤ MAX_GROUP_CHAT_MESSAGES)
    ∧ (∀ (st : GroupChatState) (m : String),
        (st.append m).entries = suffixList (st.entries ++ [m]) MAX_GROUP_CHAT_MESSAGES)
    ∧ (∀ msgs : List String,
        (msgs.foldl GroupChatState.append GroupChatState.new).entries
          = suffixList msgs MAX_GROUP_CHAT_MESSAGES)
    ∧ (∀ (st : GroupChatState) (m : String) (id : ThreadId),
        (st.append m).cursors id = st.cursors id - st.evictCount)
    ∧ (∀ (st : GroupChatState) (m : String) (id : ThreadId),
        st.evictCount ≤ st.cursors id →
        (st.append m).entries.length - (st.append m).cursors id
          = (st.entries.length + 1) - st.cursors id) := by
  refine ⟨fun msgs => ?_, fun st m => st.append_entries_eq_suffix m, fun msgs => ?_,
    fun st m id => st.append_cursors_eq m id,
    fun st m id h => st.append_unread_eq m id h⟩
  · exact GroupChatState.foldl_append_entries_le msgs GroupChatState.new
      (by simp [GroupChatState.new])
  · rw [GroupChatState.foldl_append_entries]
    have h := foldl_suffix_singleton MAX_GROUP_CHAT_MESSAGES msgs
      GroupChatState.new.entries (by simp [GroupChatState.new])
    simpa [GroupChatState.new] using h

/-- Witness for C1: the last conjunct applied at a concrete state whose
cursor (0) is at the evicted prefix boundary (nothing is evicted). -/
theorem group_chat_append_cap_cursor_shift_unread_witness :
    (GroupChatState.new.append "a").entries.length - (GroupChatState.new.append "a").cursors 7
      = (GroupChatState.new.entries.length + 1) - GroupChatState.new.cursors 7 :=
  group_chat_append_cap_cursor_shift_unread.2.2.2.2 GroupChatState.new "a" 7 (by decide)

/-- Claim C5: folding any sequence of deltas through
`SubagentOutput::push_delta` (resp. `push_reasoning_delta`) from a
freshly-reset buffer leaves at most 8000 characters, and the retained
buffer is exactly the true suffix (most recent characters) of the full
concatenation of the deltas. -/
theorem push_delta_capped_and_true_suffix (deltas : List (List Char)) (o : SubagentOutput)
    (hp : o.partialText = []) (hr : o.reasoning = []) :
    ((deltas.foldl SubagentOutput.push_delta o).partialText.length
        ≤ MAX_SUBAGENT_OUTPUT_CHARS
      ∧ (deltas.foldl SubagentOutput.push_delta o).partialText
        = suffixList deltas.flatten MAX_SUBAGENT_OUTPUT_CHARS)
    ∧ ((deltas.foldl SubagentOutput.push_reasoning_delta o).reasoning.length
        ≤ MAX_SUBAGENT_REASONING_CHARS
      ∧ (deltas.foldl SubagentOutput.push_reasoning_delta o).reasoning
        = suffixList deltas.flatten MAX_SUBAGENT_REASONING_CHARS) := by
  have hcap : (1 : Nat) ≤ MAX_SUBAGENT_OUTPUT_CHARS := by decide
  have hcap2 : (1 : Nat) ≤ MAX_SUBAGENT_REASONING_CHARS := by decide
  have hfold1 : (deltas.foldl SubagentOutput.push_delta o).partialText
      = suffixList deltas.flatten MAX_SUBAGENT_OUTPUT_CHARS := by
    rw [foldl_push_delta_partialText, hp]
    have := foldl_suffix MAX_SUBAGENT_OUTPUT_CHARS
      (fun acc d => trim_to_max_chars (acc ++ d) MAX_SUBAGENT_OUTPUT_CHARS)
      (fun acc d => trim_to_max_chars_eq_suffix (acc ++ d) _ hcap) deltas [] (by simp)
    simpa using this
  have hfold2 : (deltas.foldl SubagentOutput.push_reasoning_delta o).reasoning
      = suffixList deltas.flatten MAX_SUBAGENT_REASONING_CHARS := by
    rw [foldl_push_reasoning_delta_reasoning, hr]
    have := foldl_suffix MAX_SUBAGENT_REASONING_CHARS
      (fun acc d => trim_to_max_chars (acc ++ d) MAX_SUBAGENT_REASONING_CHARS)
      (fun acc d => trim_to_max_chars_eq_suffix (acc ++ d) _ hcap2) deltas [] (by simp)
    simpa using this
  refine ⟨⟨?_, hfold1⟩, ⟨?_, hfold2⟩⟩
  · rw [hfold1, suffixList_length]; omega
  · rw [hfold2, suffixList_length]; omega

/-- Witness for C5: the theorem applied to a concrete two-delta sequence
starting from the default (empty) buffer. -/
theorem push_delta_capped_and_true_suffix_witness :
    (([['h', 'i'], ['o']].foldl SubagentOutput.push_delta ⟨[], none, [], []⟩).partialText.length
        ≤ MAX_SUBAGENT_OUTPUT_CHARS
      ∧ ([['h', 'i'], ['o']].foldl SubagentOutput.push_delta
          ⟨[], none, [], []⟩).partialText
        = suffixList [['h', 'i'], ['o']].flatten MAX_SUBAGENT_OUTPUT_CHARS)
    ∧ (([['h', 'i'], ['o']].foldl SubagentOutput.push_reasoning_delta
          ⟨[], none, [], []⟩).reasoning.length
        ≤ MAX_SUBAGENT_REASONING_CHARS
      ∧ ([['h', 'i'], ['o']].foldl SubagentOutput.push_reasoning_delta
          ⟨[], none, [], []⟩).reasoning
        = suffixList [['h', 'i'], ['o']].flatten MAX_SUBAGENT_REASONING_CHARS) :=
  push_delta_capped_and_true_suffix [['h', 'i'], ['o']] ⟨[], none, [], []⟩ rfl rfl

/-- Claim C9: folding any sequence of tool events through
`SubagentOutput::push_tool_event` from a freshly-reset buffer retains at
most 200 events, namely exactly the most recent 200 in append order
(FIFO eviction of the oldest). -/
theorem push_tool_event_capped_fifo (events : List (List Char)) (o : SubagentOutput)
    (h : o.tool_events = []) :
    (events.foldl SubagentOutput.push_tool_event o).tool_events.length
        ≤ MAX_SUBAGENT_TOOL_EVENTS
    ∧ (events.foldl SubagentOutput.push_tool_event o).tool_events
        = suffixList events MAX_SUBAGENT_TOOL_EVENTS := by
  have hfold : (events.foldl SubagentOutput.push_tool_event o).tool_events
      = suffixList events MAX_SUBAGENT_TOOL_EVENTS := by
    rw [foldl_push_tool_event_tool_events, h]
    have := foldl_suffix_singleton MAX_SUBAGENT_TOOL_EVENTS events [] (by simp)
    simpa using this
  refine ⟨?_, hfold⟩
  rw [hfold, suffixList_length]
  omega

/-- Witness for C9: the theorem applied to a concrete two-event sequence
starting from the default (empty) buffer. -/
theorem push_tool_event_capped_fifo_witness :
    ([['x'], ['y']].foldl SubagentOutput.push_tool_event ⟨[], none, [], []⟩).tool_events.length
        ≤ MAX_SUBAGENT_TOOL_EVENTS
    ∧ ([['x'], ['y']].foldl SubagentOutput.push_tool_event ⟨[], none, [], []⟩).tool_events
        = suffixList [['x'], ['y']] MAX_SUBAGENT_TOOL_EVENTS :=
  push_tool_event_capped_fifo [['x'], ['y']] ⟨[], none, [], []⟩ rfl

/-- Counterexample to claim C3 as stated: with `max_chars = 0` and the
nonempty stored buffer "a", `snapshot` returns the whole buffer (the
`char_indices().nth` fallback in `trim_snapshot` keeps everything), so the
returned `partial` has 1 > 0 characters — the bound does not hold at
`max_chars = 0`. -/
theorem snapshot_zero_limit_counterexample :
    (SubagentOutput.snapshot ⟨['a'], none, [], []⟩ (some 0)).partialText = some ['a']
    ∧ ¬ ((SubagentOutput.snapshot ⟨['a'], none, [], []⟩
          (some 0)).partialText.getD []).length ≤ 0 := by
  decide

/-- Claim C3 (amended): for every positive `max_chars`, the snapshot's
`partial` and `reasoning` are `none` exactly when the stored buffer is
empty and otherwise equal the at most `max_chars` trailing characters of
the stored buffer (hence contain at most `max_chars` characters), while
`last_message` and `tool_events` are copied unchanged; the snapshot is a
pure read of the stored state. For `max_chars = 0` (rejected by the
caller layer) the truncation does not apply: a nonempty buffer is
returned whole. -/
theorem snapshot_positive_limit_suffix (o : SubagentOutput) (m : Nat) (hm : 1 ≤ m) :
    ((o.snapshot (some m)).partialText
        = if o.partialText.isEmpty then none else some (suffixList o.partialText m))
    ∧ ((o.snapshot (some m)).partialText.getD []).length ≤ m
    ∧ ((o.snapshot (some m)).reasoning
        = if o.reasoning.isEmpty then none else some (suffixList o.reasoning m))
    ∧ ((o.snapshot (some m)).reasoning.getD []).length ≤ m
    ∧ (o.snapshot (some m)).last_message = o.last_message
    ∧ (o.snapshot (some m)).tool_events = o.tool_events := by
  refine ⟨snapshot_partialText_pos o m hm, ?_, snapshot_reasoning_pos o m hm, ?_, rfl, rfl⟩
  · rw [snapshot_partialText_pos o m hm]
    by_cases he : o.partialText.isEmpty
    · simp [he]
    · simp only [he, Bool.false_eq_true, if_false, Option.getD_some]
      rw [suffixList_length]
      omega
  · rw [snapshot_reasoning_pos o m hm]
    by_cases he : o.reasoning.isEmpty
    · simp [he]
    · simp only [he, Bool.false_eq_true, if_false, Option.getD_some]
      rw [suffixList_length]
      omega

/-- Witness for C3 (amended): the theorem applied at `max_chars = 1` to a
buffer holding "ab" and reasoning "c". -/
theorem snapshot_positive_limit_suffix_witness :
    ((SubagentOutput.snapshot ⟨['a', 'b'], some ['m'], ['c'], []⟩ (some 1)).partialText
        = if (['a', 'b'] : List Char).isEmpty then none
          else some (suffixList ['a', 'b'] 1))
    ∧ ((SubagentOutput.snapshot ⟨['a', 'b'], some ['m'], ['c'], []⟩
          (some 1)).partialText.getD []).length ≤ 1
    ∧ ((SubagentOutput.snapshot ⟨['a', 'b'], some ['m'], ['c'], []⟩ (some 1)).reasoning
        = if (['c'] : List Char).isEmpty then none else some (suffixList ['c'] 1))
    ∧ ((SubagentOutput.snapshot ⟨['a', 'b'], some ['m'], ['c'], []⟩
          (some 1)).reasoning.getD []).length ≤ 1
    ∧ (SubagentOutput.snapshot ⟨['a', 'b'], some ['m'], ['c'], []⟩
          (some 1)).last_message = some ['m']
    ∧ (SubagentOutput.snapshot ⟨['a', 'b'], some ['m'], ['c'], []⟩ (some 1)).tool_events = [] :=
  snapshot_positive_limit_suffix ⟨['a', 'b'], some ['m'], ['c'], []⟩ 1 (by decide)

/-- Claim C10: `SubagentOutput::reset_for_prompt` (run by `send_prompt`
before submitting a new user input) empties `partial`, `reasoning` and
`tool_events` but leaves `last_message` exactly as it was, so the previous
turn's finalized message stays readable after a new prompt is sent. -/
theorem reset_for_prompt_clears_streams_keeps_last_message (o : SubagentOutput) :
    o.reset_for_prompt.partialText = []
    ∧ o.reset_for_prompt.reasoning = []
    ∧ o.reset_for_prompt.tool_events = []
    ∧ o.reset_for_prompt.last_message = o.last_message := by
  simp [SubagentOutput.reset_for_prompt]

/-! ## Agent status, registry and control facade —
`src/codex-rs/core/src/agent/control.rs`, `thread_manager.rs` -/

/-- Modelled from the spec: `AgentStatus` is defined in the
`codex-protocol` crate, outside this excerpt's files; spec section 3
fixes it as the closed set `PendingInit`, `Running`,
`Completed(optional final message)`, `Errored(message)`, `Shutdown`,
`NotFound`, and the unit tests in `agent/control.rs` exhibit the same
variants. -/
inductive AgentStatus where
  | PendingInit
  | Running
  | Completed (final_message : Option String)
  | Errored (message : String)
  | Shutdown
  | NotFound
deriving DecidableEq

/-- The statuses `wait_for_agent` keeps polling through
(`matches!(status, AgentStatus::PendingInit | AgentStatus::Running)`). -/
def AgentStatus.isNonTerminal : AgentStatus → Bool
  | .PendingInit => true
  | .Running => true
  | _ => false

/-- A model of the Rust `Debug` rendering used in the wait-timeout
message (`{status:?}`); only its injectivity on variants matters here. -/
def statusDebugString : AgentStatus → String
  | .PendingInit => "PendingInit"
  | .Running => "Running"
  | .Completed none => "Completed(None)"
  | .Completed (some m) => "Completed(Some(\"" ++ m ++ "\"))"
  | .Errored m => "Errored(\"" ++ m ++ "\")"
  | .Shutdown => "Shutdown"
  | .NotFound => "NotFound"

/-- The `CodexErr` variants this excerpt produces (`error.rs` is outside
the excerpt; the variants and the `UnsupportedOperation` rendering are
pinned by the code and its unit test in `agent/control.rs`). -/
inductive CodexErr where
  | ThreadNotFound (id : ThreadId)
  | UnsupportedOperation (message : String)
deriving DecidableEq

/-- Modelled from the spec: the `Display` rendering of `CodexErr`
(`err.to_string()`). The `UnsupportedOperation` form is pinned by the
unit test `send_prompt_errors_when_manager_dropped`. -/
def codexErrString : CodexErr → String
  | .ThreadNotFound id => "thread not found: " ++ toString id
  | .UnsupportedOperation message => "unsupported operation: " ++ message

/-- `SubagentInfo` from `thread_manager.rs`. -/
structure SubagentInfo where
  parent_id : ThreadId
  persona : Option String
  display_name : Option String
deriving DecidableEq

/-- An agent thread as seen through the narrow interface the control
plane consumes: `agent_status` models the synchronous
`thread.agent_status().await` snapshot (the thread's own loop is an
external collaborator). -/
structure CodexThread where
  agent_status : AgentStatus

/-- `ThreadManagerState` from `thread_manager.rs`: the three registry
maps, each modelled as a lookup function (the auth/model/skills managers
play no role in the claims). -/
structure ThreadManagerState where
  threads : ThreadId → Option CodexThread
  subagents : ThreadId → Option SubagentInfo
  subagent_outputs : ThreadId → Option SubagentOutput

/-- `ThreadManagerState::get_thread`: lookup or `ThreadNotFound`. -/
def ThreadManagerState.get_thread (state : ThreadManagerState) (thread_id : ThreadId) :
    Except CodexErr CodexThread :=
  match state.threads thread_id with
  | some thread => .ok thread
  | none => .error (.ThreadNotFound thread_id)

/-- `ThreadManagerState::is_subagent_of`. -/
def ThreadManagerState.is_subagent_of (state : ThreadManagerState)
    (parent_id subagent_id : ThreadId) : Bool :=
  match state.subagents subagent_id with
  | some info => info.parent_id == parent_id
  | none => false

/-- `ThreadManagerState::subagent_output_snapshot`. -/
def ThreadManagerState.subagent_output_snapshot (state : ThreadManagerState)
    (subagent_id : ThreadId) (max_chars : Option Nat) : Option SubagentOutputSnapshot :=
  (state.subagent_outputs subagent_id).map (fun output => output.snapshot max_chars)

/-- `AgentControl` from `agent/control.rs`: the weak back-reference to
the registry is modelled as `Option` (`some` = upgradable, `none` =
registry dropped). -/
structure AgentControl where
  manager : Option ThreadManagerState

/-- `AgentControl::upgrade`. -/
def AgentControl.upgrade (c : AgentControl) : Except CodexErr ThreadManagerState :=
  match c.manager with
  | some state => .ok state
  | none => .error (.UnsupportedOperation "thread manager dropped")

/-- `AgentControl::get_status`: `NotFound` on a dropped registry or a
failed thread lookup, otherwise the thread's own status snapshot. -/
def AgentControl.get_status (c : AgentControl) (agent_id : ThreadId) : AgentStatus :=
  match c.upgrade with
  | .error _ => .NotFound
  | .ok state =>
      match state.get_thread agent_id with
      | .error _ => .NotFound
      | .ok thread => thread.agent_status

/-- `AgentControl::is_subagent_of`. -/
def AgentControl.is_subagent_of (c : AgentControl) (parent_id subagent_id : ThreadId) :
    Except CodexErr Bool :=
  match c.upgrade with
  | .error e => .error e
  | .ok state => .ok (state.is_subagent_of parent_id subagent_id)

/-- `AgentControl::subagent_output`: rejects a `subagent_id` that is not
a registered child of `parent_id` with `ThreadNotFound`, then snapshots
(or `ThreadNotFound` again when no buffer exists). -/
def AgentControl.subagent_output (c : AgentControl) (parent_id subagent_id : ThreadId)
    (max_chars : Option Nat) : Except CodexErr SubagentOutputSnapshot :=
  match c.upgrade with
  | .error e => .error e
  | .ok state =>
      if state.is_subagent_of parent_id subagent_id = false then
        .error (.ThreadNotFound subagent_id)
      else
        match state.subagent_output_snapshot subagent_id max_chars with
        | some output => .ok output
        | none => .error (.ThreadNotFound subagent_id)

/-! ## Wait protocol and collab tool handlers —
`src/codex-rs/core/src/tools/handlers/collab.rs` -/

/-- `FunctionCallError` as produced by the collab handlers. -/
inductive FunctionCallError where
  | RespondToModel (message : String)
  | Fatal (message : String)
deriving DecidableEq

/-- `DEFAULT_WAIT_TIMEOUT_MS` from `collab.rs`. -/
def DEFAULT_WAIT_TIMEOUT_MS : Int := 30000

/-- `MAX_WAIT_TIMEOUT_MS` from `collab.rs`. -/
def MAX_WAIT_TIMEOUT_MS : Int := 300000

/-- `resolve_timeout_ms` from `collab.rs`: default 30000 when absent,
reject non-positive values, cap at 300000; the final `as u64` cast is
value-preserving for the positive values that reach it (`Int.toNat`). -/
def resolve_timeout_ms (timeout_ms : Option Int) : Except String Nat :=
  let timeout_ms := timeout_ms.getD DEFAULT_WAIT_TIMEOUT_MS
  if timeout_ms ≤ 0 then
    .error "timeout_ms must be greater than zero"
  else
    .ok (min timeout_ms MAX_WAIT_TIMEOUT_MS).toNat

/-- `wait_for_agent` from `collab.rs`, with time shallowly embedded:
`g k` is the status observed by the `k`-th `get_status` poll (polls sit
200ms apart), and `fuel` is the number of 200ms sleeps the deadline still
allows (`⌈timeout_ms / 200⌉` for a positive timeout, under the model that
polling itself takes no time). Each iteration returns the observed status
as soon as it is terminal; once the deadline is reached (`fuel = 0`) a
non-terminal observation fails, reporting that last observed status. -/
def wait_for_agent (g : Nat → AgentStatus) : Nat → Nat → Except AgentStatus AgentStatus
  | 0, k =>
      let status := g k
      if status.isNonTerminal then .error status else .ok status
  | fuel + 1, k =>
      let status := g k
      if status.isNonTerminal then wait_for_agent g fuel (k + 1) else .ok status

/-- `handle_wait` from `collab.rs`, after argument parsing: resolve the
timeout, then poll. `g` abstracts `get_status(agent_id)` at successive
poll instants for the requested agent. Note the handler never consults
the subagent registry: `agent_id` does not influence the result beyond
what `g` reports. The Rust timeout error carries
`format!("wait timed out; last status was {status:?}")`. -/
def handle_wait (g : Nat → AgentStatus) (agent_id : ThreadId) (timeout_ms : Option Int) :
    Except FunctionCallError AgentStatus :=
  match resolve_timeout_ms timeout_ms with
  | .error e => .error (.RespondToModel e)
  | .ok t =>
      match wait_for_agent g ((t + 199) / 200) 0 with
      | .ok status => .ok status
      | .error last =>
          .error (.RespondToModel ("wait timed out; last status was "
            ++ statusDebugString last))

/-- Rust `str::trim`: remove leading and trailing whitespace, modelled on
char lists (so that it is kernel-computable). -/
def trimChars (value : List Char) : List Char :=
  ((value.dropWhile Char.isWhitespace).reverse.dropWhile Char.isWhitespace).reverse

/-- `handle_send_input` from `collab.rs`, after argument parsing.
`caller_is_subagent` is the `SessionSource::SubAgent` test on the turn's
client; `deliver` abstracts the delivery tail (group-chat posting and the
`"ok"` output), which runs only after the authorization check passes. -/
def handle_send_input (c : AgentControl) (caller : ThreadId) (caller_is_subagent : Bool)
    (id : ThreadId) (message : List Char) (deliver : Except FunctionCallError String) :
    Except FunctionCallError String :=
  if (trimChars message).isEmpty then
    .error (.RespondToModel "Empty message can't be send to an agent")
  else if caller_is_subagent then
    match c.is_subagent_of id caller with
    | .error e => .error (.Fatal (codexErrString e))
    | .ok false =>
        .error (.RespondToModel ("agent with id " ++ toString id ++ " not found"))
    | .ok true => deliver
  else
    match c.is_subagent_of caller id with
    | .error e => .error (.Fatal (codexErrString e))
    | .ok false =>
        .error (.RespondToModel ("agent with id " ++ toString id ++ " not found"))
    | .ok true => deliver

/-- `AgentControl::shutdown_agent`, with the runtime outcome of
submitting `Op::Shutdown` to the (external) thread abstracted as
`submit`. -/
def shutdown_agent_result (c : AgentControl) (submit : Except String String) :
    Except String String :=
  match c.upgrade with
  | .error e => .error (codexErrString e)
  | .ok _ => submit

/-- `handle_close_agent` from `collab.rs`, after argument parsing:
authorization check, shutdown submission, timeout resolution, wait, then
(not reflected in the returned value) `forget_subagent`. `submit`
abstracts the external shutdown submission, `g` the polled statuses as in
`handle_wait`. -/
def handle_close_agent (c : AgentControl) (caller id : ThreadId) (timeout_ms : Option Int)
    (submit : Except String String) (g : Nat → AgentStatus) :
    Except FunctionCallError AgentStatus :=
  match c.is_subagent_of caller id with
  | .error e => .error (.Fatal (codexErrString e))
  | .ok false =>
      .error (.RespondToModel ("agent with id " ++ toString id ++ " not found"))
  | .ok true =>
      match shutdown_agent_result c submit with
      | .error e => .error (.Fatal e)
      | .ok _ =>
          match resolve_timeout_ms timeout_ms with
          | .error e => .error (.RespondToModel e)
          | .ok t =>
              match wait_for_agent g ((t + 199) / 200) 0 with
              | .ok status => .ok status
              | .error last =>
                  .error (.RespondToModel ("wait timed out; last status was "
                    ++ statusDebugString last))

/-- `AgentOutputResponse` from `collab.rs` (the serialized payload's
fields). -/
structure AgentOutputResponse where
  id : ThreadId
  status : AgentStatus
  partialText : Option (List Char)
  last_message : Option (List Char)
  reasoning : Option (List Char)
  tool_events : Option (List (List Char))
deriving DecidableEq

/-- `handle_agent_output` from `collab.rs`, after argument parsing:
reject `max_chars = 0`, fetch the authorized snapshot (mapping
`ThreadNotFound` to the model-readable "not found" text and any other
error to a fatal one), then attach the live status. -/
def handle_agent_output (c : AgentControl) (caller id : ThreadId)
    (max_chars : Option Nat) : Except FunctionCallError AgentOutputResponse :=
  if max_chars = some 0 then
    .error (.RespondToModel "max_chars must be greater than zero")
  else
    match c.subagent_output caller id max_chars with
    | .error (.ThreadNotFound i) =>
        .error (.RespondToModel ("agent with id " ++ toString i ++ " not found"))
    | .error (.UnsupportedOperation m) =>
        .error (.Fatal (codexErrString (.UnsupportedOperation m)))
    | .ok output =>
        let status := c.get_status id
        let tool_events :=
          if output.tool_events.isEmpty then none else some output.tool_events
        .ok { id := id
              status := status
              partialText := output.partialText
              last_message := output.last_message
              reasoning := output.reasoning
              tool_events := tool_events }

/-! ## Headless drain task — `src/codex-rs/core/src/agent/control.rs` -/

/-- `normalize_subagent_message` from `agent/control.rs`: trim, and an
empty result becomes `none`. -/
def normalize_subagent_message (message : List Char) : Option (List Char) :=
  let trimmed := trimChars message
  if trimmed.isEmpty then none else some trimmed

/-- The `TurnItem` shapes the drain task distinguishes (the full enum
lives in the `codex-protocol` crate): an agent message with its text
chunks, or anything else. -/
inductive TurnItem where
  | AgentMessage (content : List (List Char))
  | Other
deriving DecidableEq

/-- `subagent_message_from_item` from `agent/control.rs`: concatenate an
agent message item's text chunks and normalize; `none` for any other
item. -/
def subagent_message_from_item : TurnItem → Option (List Char)
  | .AgentMessage content => normalize_subagent_message content.flatten
  | .Other => none

/-- The event alphabet as distinguished by the headless drain task's
match (the full `EventMsg` enum lives in the `codex-protocol` crate; the
several delta arms of the same shape are represented once each).
`turnComplete` stands for the turn-boundary events, which fall into the
drain's catch-all `_ => {}` arm: the drain keeps no per-turn state. -/
inductive DrainEvent where
  | itemCompleted (item : TurnItem)
  | agentMessage (message : List Char)
  | agentMessageDelta (delta : List Char)
  | agentReasoningDelta (delta : List Char)
  | turnComplete
  | otherIgnored
deriving DecidableEq

/-- Whether an event is the finalized agent-message event
(`EventMsg::AgentMessage`). -/
def DrainEvent.isAgentMessage : DrainEvent → Bool
  | .agentMessage _ => true
  | _ => false

/-- A group-chat post submitted to the parent thread
(`Op::GroupChatMessage` with a `GroupChatSender::SubAgent` sender). -/
structure GroupChatPost where
  parent_id : ThreadId
  text : List Char
  sender_id : ThreadId
  sender_persona : Option String
deriving DecidableEq

/-- The state the drain task folds events into: its local
`saw_message_item_completed` flag (initialized `false` when the task
starts and never reset), the drained agent's output-buffer entry
(`none` models an already-removed buffer, for which the record calls are
no-ops), and the sequence of group-chat posts sent to the parent. -/
structure DrainState where
  saw_message_item_completed : Bool
  output : Option SubagentOutput
  posts : List GroupChatPost
deriving DecidableEq

/-- `record_and_post_subagent_message` from `agent/control.rs`: record as
`last_message` (clearing `partial`), then — when the agent is still
registered with `SubagentInfo` — post the message to the parent's group
chat tagged with the subagent's id and persona (a failed submit is only
logged, which the post list does not model). -/
def record_and_post_subagent_message (info : Option SubagentInfo) (agent_id : ThreadId)
    (s : DrainState) (message : List Char) : DrainState :=
  let s1 := { s with output := s.output.map (fun o => o.set_message message) }
  match info with
  | some i =>
      { s1 with posts := s1.posts ++
          [{ parent_id := i.parent_id, text := message,
             sender_id := agent_id, sender_persona := i.persona }] }
  | none => s1

/-- One iteration of the headless drain loop in `spawn_headless_drain`
(`agent/control.rs`), restricted to the message-bearing arms, one
representative of each delta arm, and the catch-all: a completed
message-bearing item sets the `saw_message_item_completed` flag and
records/posts; a finalized agent-message event records/posts only while
the flag is still unset; deltas append to the buffers; everything else is
ignored. `info` is the registry's `SubagentInfo` entry for the drained
agent. -/
def drain_step (info : Option SubagentInfo) (agent_id : ThreadId)
    (s : DrainState) (ev : DrainEvent) : DrainState :=
  match ev with
  | .itemCompleted item =>
      match subagent_message_from_item item with
      | some message =>
          record_and_post_subagent_message info agent_id
            { s with saw_message_item_completed := true } message
      | none => s
  | .agentMessage message =>
      if s.saw_message_item_completed then s
      else
        match normalize_subagent_message message with
        | some m => record_and_post_subagent_message info agent_id s m
        | none => s
  | .agentMessageDelta delta =>
      { s with output := s.output.map (fun o => o.push_delta delta) }
  | .agentReasoningDelta delta =>
      { s with output := s.output.map (fun o => o.push_reasoning_delta delta) }
  | .turnComplete => s
  | .otherIgnored => s

lemma wait_for_agent_ok_terminal (g : Nat → AgentStatus) :
    ∀ (fuel k : Nat) (s : AgentStatus),
      wait_for_agent g fuel k = .ok s → s.isNonTerminal = false := by
  intro fuel
  induction fuel with
  | zero =>
      intro k s h
      simp only [wait_for_agent] at h
      by_cases hnt : (g k).isNonTerminal
      · simp [hnt] at h
      · simp [hnt] at h
        subst h
        simpa using hnt
  | succ f ih =>
      intro k s h
      simp only [wait_for_agent] at h
      by_cases hnt : (g k).isNonTerminal
      · rw [if_pos hnt] at h
        exact ih _ _ h
      · simp [hnt] at h
        subst h
        simpa using hnt

lemma wait_for_agent_first_terminal (g : Nat → AgentStatus) :
    ∀ (fuel k j : Nat), j ≤ fuel →
      (∀ i, i < j → (g (k + i)).isNonTerminal = true) →
      (g (k + j)).isNonTerminal = false →
      wait_for_agent g fuel k = .ok (g (k + j)) := by
  intro fuel
  induction fuel with
  | zero =>
      intro k j hj hlt hterm
      have hj0 : j = 0 := by omega
      subst hj0
      simp only [Nat.add_zero] at hterm
      simp [wait_for_agent, hterm]
  | succ f ih =>
      intro k j hj hlt hterm
      cases j with
      | zero =>
          simp only [Nat.add_zero] at hterm
          simp [wait_for_agent, hterm]
      | succ j0 =>
          have h0 : (g k).isNonTerminal = true := by
            simpa using hlt 0 (Nat.succ_pos j0)
          have hlt2 : ∀ i, i < j0 → (g ((k + 1) + i)).isNonTerminal = true := by
            intro i hi
            have h2 := hlt (i + 1) (by omega)
            have hidx : k + (i + 1) = (k + 1) + i := by omega
            rwa [hidx] at h2
          have hterm2 : (g ((k + 1) + j0)).isNonTerminal = false := by
            have hidx : k + (j0 + 1) = (k + 1) + j0 := by omega
            rwa [hidx] at hterm
          have hrec := ih (k + 1) j0 (by omega) hlt2 hterm2
          have hres : wait_for_agent g (f + 1) k = wait_for_agent g f (k + 1) := by
            simp [wait_for_agent, h0]
          rw [hres]
          have hidx : k + (j0 + 1) = (k + 1) + j0 := by omega
          rw [hidx]
          exact hrec

lemma wait_for_agent_all_nonterminal (g : Nat → AgentStatus) :
    ∀ (fuel k : Nat),
      (∀ i, i ≤ fuel → (g (k + i)).isNonTerminal = true) →
      wait_for_agent g fuel k = .error (g (k + fuel)) := by
  intro fuel
  induction fuel with
  | zero =>
      intro k h
      have h0 : (g k).isNonTerminal = true := by simpa using h 0 (Nat.le_refl 0)
      simp [wait_for_agent, h0]
  | succ f ih =>
      intro k h
      have h0 : (g k).isNonTerminal = true := by simpa using h 0 (by omega)
      have h2 : ∀ i, i ≤ f → (g ((k + 1) + i)).isNonTerminal = true := by
        intro i hi
        have h3 := h (i + 1) (by omega)
        have hidx : k + (i + 1) = (k + 1) + i := by omega
        rwa [hidx] at h3
      have hrec := ih (k + 1) h2
      have hres : wait_for_agent g (f + 1) k = wait_for_agent g f (k + 1) := by
        simp [wait_for_agent, h0]
      rw [hres, hrec]
      have hidx : (k + 1) + f = k + (f + 1) := by omega
      rw [hidx]

end KaabilCodex

namespace KaabilCodex

/-- Claim C6: the wait protocol over successive `get_status`
observations at the fixed 200ms poll interval (`g i` = the `i`-th
observation, `fuel` = sleeps the deadline allows): a successful result is
never a non-terminal status; the first observation outside
`{PendingInit, Running}` is returned as the success, provided it falls
before the deadline; and when every observation up to the deadline is
non-terminal, the call fails reporting exactly the last observed status
(never silently returning a stale success). -/
theorem wait_poll_protocol :
    (∀ (g : Nat → AgentStatus) (fuel k : Nat) (s : AgentStatus),
        wait_for_agent g fuel k = .ok s → s.isNonTerminal = false)
    ∧ (∀ (g : Nat → AgentStatus) (fuel j : Nat),
        j ≤ fuel →
        (∀ i, i < j → (g i).isNonTerminal = true) →
        (g j).isNonTerminal = false →
        wait_for_agent g fuel 0 = .ok (g j))
    ∧ (∀ (g : Nat → AgentStatus) (fuel : Nat),
        (∀ i, i ≤ fuel → (g i).isNonTerminal = true) →
        wait_for_agent g fuel 0 = .error (g fuel)) := by
  refine ⟨wait_for_agent_ok_terminal, ?_, ?_⟩
  · intro g fuel j hj hlt hterm
    have h := wait_for_agent_first_terminal g fuel 0 j hj
      (by intro i hi; simpa using hlt i hi) (by simpa using hterm)
    simpa using h
  · intro g fuel h
    have hall := wait_for_agent_all_nonterminal g fuel 0
      (by intro i hi; simpa using h i hi)
    simpa using hall

/-- Witness for C6: waiting on a constant `Running` oracle exhausts the
deadline and reports `Running` as the last observed status. -/
theorem wait_poll_protocol_witness :
    wait_for_agent (fun _ => AgentStatus.Running) 2 0 = .error AgentStatus.Running := by
  have h := wait_poll_protocol.2.2 (fun _ => AgentStatus.Running) 2 (fun i _ => rfl)
  simpa using h

/-- Claim C7: `AgentControl::get_status` returns `NotFound` both when the
weak registry reference can no longer be resolved (manager dropped) and
when the id has no entry in the registry's thread map — both failure
modes collapse to the same `NotFound` value rather than an error. -/
theorem get_status_not_found_collapse :
    (∀ id : ThreadId, AgentControl.get_status ⟨none⟩ id = AgentStatus.NotFound)
    ∧ (∀ (state : ThreadManagerState) (id : ThreadId),
        state.threads id = none →
        AgentControl.get_status ⟨some state⟩ id = AgentStatus.NotFound) := by
  constructor
  · intro id
    rfl
  · intro state id h
    simp [AgentControl.get_status, AgentControl.upgrade, ThreadManagerState.get_thread, h]

/-- Witness for C7: the empty registry has no thread 3, so `get_status`
collapses to `NotFound`. -/
theorem get_status_not_found_collapse_witness :
    AgentControl.get_status ⟨some ⟨fun _ => none, fun _ => none, fun _ => none⟩⟩ 3
      = AgentStatus.NotFound :=
  get_status_not_found_collapse.2 ⟨fun _ => none, fun _ => none, fun _ => none⟩ 3 rfl

/-- Claim C8: `resolve_timeout_ms` resolves an absent timeout to
30000ms, rejects any timeout ≤ 0 with an error (never clamping it), caps
any positive timeout above 300000ms at exactly 300000ms, and returns any
other positive timeout unchanged. -/
theorem resolve_timeout_policy :
    (resolve_timeout_ms none = .ok 30000)
    ∧ (∀ t : Int, t ≤ 0 →
        resolve_timeout_ms (some t) = .error "timeout_ms must be greater than zero")
    ∧ (∀ t : Int, MAX_WAIT_TIMEOUT_MS < t → resolve_timeout_ms (some t) = .ok 300000)
    ∧ (∀ t : Int, 0 < t → t ≤ MAX_WAIT_TIMEOUT_MS →
        resolve_timeout_ms (some t) = .ok t.toNat) := by
  refine ⟨rfl, ?_, ?_, ?_⟩
  · intro t ht
    simp only [resolve_timeout_ms, Option.getD_some]
    rw [if_pos ht]
  · intro t ht
    simp only [MAX_WAIT_TIMEOUT_MS] at ht
    have h0 : ¬ t ≤ 0 := by omega
    simp only [resolve_timeout_ms, Option.getD_some, if_neg h0]
    have hmin : min t MAX_WAIT_TIMEOUT_MS = MAX_WAIT_TIMEOUT_MS := by
      simp only [MAX_WAIT_TIMEOUT_MS]
      omega
    rw [hmin]
    rfl
  · intro t h1 h2
    have h0 : ¬ t ≤ 0 := by omega
    simp only [resolve_timeout_ms, Option.getD_some, if_neg h0]
    rw [min_eq_left h2]

/-- Witness for C8: rejection at -7, capping at 300001, identity at 5. -/
theorem resolve_timeout_policy_witness :
    resolve_timeout_ms (some (-7)) = .error "timeout_ms must be greater than zero"
    ∧ resolve_timeout_ms (some 300001) = .ok 300000
    ∧ resolve_timeout_ms (some 5) = .ok ((5 : Int).toNat) :=
  ⟨resolve_timeout_policy.2.1 (-7) (by decide),
   resolve_timeout_policy.2.2.1 300001 (by decide),
   resolve_timeout_policy.2.2.2 5 (by decide) (by decide)⟩

/-- Counterexample to claim C2 as stated: in a registry with no
subagents at all, id 1 is not a registered child of caller 0, yet `wait`
on it does not fail with a "not found" error — `handle_wait` performs no
relationship check and simply polls, returning the polled terminal
status as a success. -/
theorem handle_wait_no_authorization_counterexample :
    ThreadManagerState.is_subagent_of ⟨fun _ => none, fun _ => none, fun _ => none⟩ 0 1 = false
    ∧ handle_wait (fun _ => AgentStatus.Completed (some "done")) 1 (some 1000)
        = .ok (AgentStatus.Completed (some "done")) :=
  ⟨rfl, rfl⟩

/-- Claim C2 (amended): `send_input`, `close_agent` and `agent_output`
each enforce a registered parent/child relationship and fail with an
"agent with id … not found" error when it does not hold — `close_agent`,
`agent_output` and orchestrator-side `send_input` require the target to
be a registered child of the caller, while subagent-side `send_input`
requires the caller to be a registered child of the target (its parent).
`wait`, however, performs no relationship check at all: its result is
independent of the requested id's registration and it polls the status
of any well-formed id rather than rejecting unrelated ones. -/
theorem collab_relationship_checks :
    (∀ (state : ThreadManagerState) (caller id : ThreadId) (message : List Char)
        (deliver : Except FunctionCallError String),
        (trimChars message).isEmpty = false →
        state.is_subagent_of caller id = false →
        handle_send_input ⟨some state⟩ caller false id message deliver
          = .error (.RespondToModel ("agent with id " ++ toString id ++ " not found")))
    ∧ (∀ (state : ThreadManagerState) (caller id : ThreadId) (message : List Char)
        (deliver : Except FunctionCallError String),
        (trimChars message).isEmpty = false →
        state.is_subagent_of id caller = false →
        handle_send_input ⟨some state⟩ caller true id message deliver
          = .error (.RespondToModel ("agent with id " ++ toString id ++ " not found")))
    ∧ (∀ (state : ThreadManagerState) (caller id : ThreadId) (timeout_ms : Option Int)
        (submit : Except String String) (g : Nat → AgentStatus),
        state.is_subagent_of caller id = false →
        handle_close_agent ⟨some state⟩ caller id timeout_ms submit g
          = .error (.RespondToModel ("agent with id " ++ toString id ++ " not found")))
    ∧ (∀ (state : ThreadManagerState) (caller id : ThreadId) (max_chars : Option Nat),
        max_chars ≠ some 0 →
        state.is_subagent_of caller id = false →
        handle_agent_output ⟨some state⟩ caller id max_chars
          = .error (.RespondToModel ("agent with id " ++ toString id ++ " not found")))
    ∧ (∀ (g : Nat → AgentStatus) (id1 id2 : ThreadId) (timeout_ms : Option Int),
        handle_wait g id1 timeout_ms = handle_wait g id2 timeout_ms) := by
  refine ⟨?_, ?_, ?_, ?_, ?_⟩
  · intro state caller id message deliver hmsg hrel
    simp [handle_send_input, AgentControl.is_subagent_of, AgentControl.upgrade, hmsg, hrel]
  · intro state caller id message deliver hmsg hrel
    simp [handle_send_input, AgentControl.is_subagent_of, AgentControl.upgrade, hmsg, hrel]
  · intro state caller id timeout_ms submit g hrel
    simp [handle_close_agent, AgentControl.is_subagent_of, AgentControl.upgrade, hrel]
  · intro state caller id max_chars hmc hrel
    simp [handle_agent_output, AgentControl.subagent_output, AgentControl.upgrade, hmc, hrel]
  · intro g id1 id2 timeout_ms
    rfl

/-- Witness for C2 (amended): in the empty registry, each checked
operation rejects the unrelated id 1 called from 0, and `wait`'s result
is id-independent. -/
theorem collab_relationship_checks_witness :
    handle_send_input ⟨some ⟨fun _ => none, fun _ => none, fun _ => none⟩⟩ 0 false 1
        ['h', 'i'] (.ok "ok")
      = .error (.RespondToModel ("agent with id " ++ toString (1 : Nat) ++ " not found"))
    ∧ handle_send_input ⟨some ⟨fun _ => none, fun _ => none, fun _ => none⟩⟩ 0 true 1
        ['h', 'i'] (.ok "ok")
      = .error (.RespondToModel ("agent with id " ++ toString (1 : Nat) ++ " not found"))
    ∧ handle_close_agent ⟨some ⟨fun _ => none, fun _ => none, fun _ => none⟩⟩ 0 1 none
        (.ok "ack") (fun _ => AgentStatus.Running)
      = .error (.RespondToModel ("agent with id " ++ toString (1 : Nat) ++ " not found"))
    ∧ handle_agent_output ⟨some ⟨fun _ => none, fun _ => none, fun _ => none⟩⟩ 0 1 none
      = .error (.RespondToModel ("agent with id " ++ toString (1 : Nat) ++ " not found"))
    ∧ handle_wait (fun _ => AgentStatus.Shutdown) 1 none
      = handle_wait (fun _ => AgentStatus.Shutdown) 2 none :=
  ⟨collab_relationship_checks.1 _ 0 1 ['h', 'i'] (.ok "ok") (by decide) rfl,
   collab_relationship_checks.2.1 _ 0 1 ['h', 'i'] (.ok "ok") (by decide) rfl,
   collab_relationship_checks.2.2.1 _ 0 1 none (.ok "ack") (fun _ => AgentStatus.Running) rfl,
   collab_relationship_checks.2.2.2.1 _ 0 1 none (by decide) rfl,
   collab_relationship_checks.2.2.2.2 (fun _ => AgentStatus.Shutdown) 1 2 none⟩

end KaabilCodex

namespace KaabilCodex

lemma drain_step_saw_mono (info : Option SubagentInfo) (aid : ThreadId)
    (s : DrainState) (ev : DrainEvent)
    (h : s.saw_message_item_completed = true) :
    (drain_step info aid s ev).saw_message_item_completed = true := by
  cases ev with
  | itemCompleted item =>
      cases hm : subagent_message_from_item item with
      | none => simp [drain_step, hm, h]
      | some m =>
          simp only [drain_step, hm, record_and_post_subagent_message]
          cases info <;> simp
  | agentMessage m => simp [drain_step, h]
  | agentMessageDelta d => simpa [drain_step] using h
  | agentReasoningDelta d => simpa [drain_step] using h
  | turnComplete => simpa [drain_step] using h
  | otherIgnored => simpa [drain_step] using h

lemma drain_step_agentMessage_suppressed (info : Option SubagentInfo) (aid : ThreadId)
    (s : DrainState) (m : List Char)
    (h : s.saw_message_item_completed = true) :
    drain_step info aid s (.agentMessage m) = s := by
  simp [drain_step, h]

lemma drain_foldl_filter_agentMessage (info : Option SubagentInfo) (aid : ThreadId) :
    ∀ (evs : List DrainEvent) (s : DrainState),
      s.saw_message_item_completed = true →
      evs.foldl (drain_step info aid) s
        = (evs.filter (fun e => !e.isAgentMessage)).foldl (drain_step info aid) s := by
  intro evs
  induction evs with
  | nil => intro s h; rfl
  | cons e rest ih =>
      intro s h
      cases e with
      | agentMessage m =>
          simp only [List.foldl_cons, List.filter_cons, DrainEvent.isAgentMessage,
            Bool.not_true, Bool.false_eq_true, if_false,
            drain_step_agentMessage_suppressed info aid s m h]
          exact ih s h
      | itemCompleted item =>
          simp only [List.foldl_cons, List.filter_cons, DrainEvent.isAgentMessage,
            Bool.not_false, if_true]
          exact ih _ (drain_step_saw_mono info aid s _ h)
      | agentMessageDelta d =>
          simp only [List.foldl_cons, List.filter_cons, DrainEvent.isAgentMessage,
            Bool.not_false, if_true]
          exact ih _ (drain_step_saw_mono info aid s _ h)
      | agentReasoningDelta d =>
          simp only [List.foldl_cons, List.filter_cons, DrainEvent.isAgentMessage,
            Bool.not_false, if_true]
          exact ih _ (drain_step_saw_mono info aid s _ h)
      | turnComplete =>
          simp only [List.foldl_cons, List.filter_cons, DrainEvent.isAgentMessage,
            Bool.not_false, if_true]
          exact ih _ (drain_step_saw_mono info aid s _ h)
      | otherIgnored =>
          simp only [List.foldl_cons, List.filter_cons, DrainEvent.isAgentMessage,
            Bool.not_false, if_true]
          exact ih _ (drain_step_saw_mono info aid s _ h)

/-- Counterexample to claim C4 as stated: after a completed
message-bearing item ("done") and a turn boundary, a finalized
agent-message event ("later") in the next turn is neither recorded as
`last_message` nor posted — the `saw_message_item_completed` flag is
never reset per turn, so the drain keeps `last_message = "done"` and
exactly the one "done" post, where the claim requires the later-turn
message to be recorded and posted. -/
theorem drain_later_turn_message_suppressed_counterexample :
    ([DrainEvent.itemCompleted (TurnItem.AgentMessage [['d', 'o', 'n', 'e']]),
      DrainEvent.turnComplete,
      DrainEvent.agentMessage ['l', 'a', 't', 'e', 'r']].foldl
        (drain_step (some ⟨0, some "Builder", none⟩) 1)
        ⟨false, some ⟨[], none, [], []⟩, []⟩).posts
      = [⟨0, ['d', 'o', 'n', 'e'], 1, some "Builder"⟩]
    ∧ ([DrainEvent.itemCompleted (TurnItem.AgentMessage [['d', 'o', 'n', 'e']]),
        DrainEvent.turnComplete,
        DrainEvent.agentMessage ['l', 'a', 't', 'e', 'r']].foldl
          (drain_step (some ⟨0, some "Builder", none⟩) 1)
          ⟨false, some ⟨[], none, [], []⟩, []⟩).output
      = some ⟨[], some ['d', 'o', 'n', 'e'], [], []⟩ := by
  decide

/-- Claim C4 (amended): in the headless drain fold, a completed
message-bearing item always records the message as `last_message`
(clearing `partial`) and posts it to the parent tagged with the
subagent's id and persona, setting the `saw_message_item_completed`
flag; a finalized agent-message event does the same only while that flag
is still unset; and once the flag is set it is never cleared — every
later finalized agent-message event, in the same turn or any later turn,
is ignored for the remainder of the drain task's lifetime (folding any
event sequence from a flagged state equals folding it with all finalized
agent-message events filtered out). -/
theorem drain_first_writer_for_lifetime :
    (∀ (i : SubagentInfo) (aid : ThreadId) (s : DrainState) (o : SubagentOutput)
        (item : TurnItem) (m : List Char),
        subagent_message_from_item item = some m →
        s.output = some o →
        (drain_step (some i) aid s (.itemCompleted item)).saw_message_item_completed = true
        ∧ (drain_step (some i) aid s (.itemCompleted item)).output
            = some (o.set_message m)
        ∧ (drain_step (some i) aid s (.itemCompleted item)).posts
            = s.posts ++ [⟨i.parent_id, m, aid, i.persona⟩])
    ∧ (∀ (i : SubagentInfo) (aid : ThreadId) (s : DrainState) (o : SubagentOutput)
        (msg m : List Char),
        s.saw_message_item_completed = false →
        normalize_subagent_message msg = some m →
        s.output = some o →
        (drain_step (some i) aid s (.agentMessage msg)).output = some (o.set_message m)
        ∧ (drain_step (some i) aid s (.agentMessage msg)).posts
            = s.posts ++ [⟨i.parent_id, m, aid, i.persona⟩])
    ∧ (∀ (info : Option SubagentInfo) (aid : ThreadId) (s : DrainState) (msg : List Char),
        s.saw_message_item_completed = true →
        drain_step info aid s (.agentMessage msg) = s)
    ∧ (∀ (info : Option SubagentInfo) (aid : ThreadId) (s : DrainState)
        (evs : List DrainEvent),
        s.saw_message_item_completed = true →
        evs.foldl (drain_step info aid) s
          = (evs.filter (fun e => !e.isAgentMessage)).foldl (drain_step info aid) s) := by
  refine ⟨?_, ?_, drain_step_agentMessage_suppressed,
    fun info aid s evs h => drain_foldl_filter_agentMessage info aid evs s h⟩
  · intro i aid s o item m hm ho
    refine ⟨?_, ?_, ?_⟩ <;>
      simp [drain_step, hm, record_and_post_subagent_message, ho]
  · intro i aid s o msg m hsaw hm ho
    constructor <;>
      simp [drain_step, hsaw, hm, record_and_post_subagent_message, ho]

/-- Witness for C4 (amended): the first and third conjuncts applied at a
concrete item ("done"), state and flagged state. -/
theorem drain_first_writer_for_lifetime_witness :
    (let st := drain_step (some ⟨0, some "p", none⟩) 1 ⟨false, some ⟨[], none, [], []⟩, []⟩
        (.itemCompleted (TurnItem.AgentMessage [['d', 'o', 'n', 'e']]))
     st.saw_message_item_completed = true
      ∧ st.output = some (SubagentOutput.set_message ⟨[], none, [], []⟩ ['d', 'o', 'n', 'e'])
      ∧ st.posts = [] ++ [⟨0, ['d', 'o', 'n', 'e'], 1, some "p"⟩])
    ∧ drain_step none 1 ⟨true, none, []⟩ (.agentMessage ['x']) = ⟨true, none, []⟩ :=
  ⟨drain_first_writer_for_lifetime.1 ⟨0, some "p", none⟩ 1
      ⟨false, some ⟨[], none, [], []⟩, []⟩ ⟨[], none, [], []⟩
      (TurnItem.AgentMessage [['d', 'o', 'n', 'e']]) ['d', 'o', 'n', 'e'] (by decide) rfl,
   drain_first_writer_for_lifetime.2.2.1 none 1 ⟨true, none, []⟩ ['x'] rfl⟩

end KaabilCodex
